import Mathlib

/-!
Shallow embedding of `src/agent_instruction_generator.py` (text-2-sql repository).

External services (S3, Athena) are modelled as explicit inputs:
* S3 listing pages become `List (List S3Object)`; an object's gzip content
  becomes `Option (List JsonLine)` (`none` = fetch/decompression failure).
* The Athena client becomes an `AthenaClient` with a stream of poll states and
  the rows of the query result set (each row is the list of its cells'
  `VarCharValue`s).
* Python dicts become association lists in insertion order; the Python `set`
  accumulator of `process_folder` becomes a `Finset String`.
-/

/-- Models Python `' '.join` / `', '.join` (`str.join`): empty list gives the
empty string, otherwise the head followed by `sep ++ element` for each later
element. -/
def pyJoin (sep : String) : List String → String
  | [] => ""
  | x :: xs => xs.foldl (fun acc s => acc ++ sep ++ s) x

/-- Models Python `str.endswith`: the character list of `t` is a suffix of the
character list of `s` (stated over the character lists so that the kernel can
evaluate it on literals). -/
def strEndsWith (s t : String) : Bool :=
  t.data.isSuffixOf s.data

/-- Models Python `.replace(' ', '_')`: every space character becomes an
underscore (the pattern is a single character, so per-character map is exact). -/
def replaceSpaces (s : String) : String :=
  ⟨s.data.map fun c => if c = ' ' then '_' else c⟩

/-- The value stored per table/folder in a `data_context` dict:
`{'columns': [...], 'sample_data': ...}` as produced by the samplers and
consumed by `generate_instruction`. -/
structure DataCtx where
  columns : List String
  sample_data : Option (List (String × String))
deriving DecidableEq, Repr

/-- Python truthiness of the `data_context` argument (`if data_context:`):
`None` and the empty dict are falsy, a non-empty dict is truthy. -/
def truthy : Option (List (String × DataCtx)) → Bool
  | none => false
  | some [] => false
  | some (_ :: _) => true

/-- The fixed `instruction_parts` list built at the top of
`generate_instruction` (src/agent_instruction_generator.py lines 150-184),
with `database_name` interpolated into the first element. Adjacent Python
string literals are concatenated. -/
def instruction_parts (database_name : String) : List String :=
  [ "Role: You are an advanced database querying agent crafted specifically for generating precise SQL queries for Amazon Athena concerning the " ++ database_name ++ ".",
    "Objective: Generate SQL queries to return data based on the provided schema and user request. Ultimately, answer the user\x27s question regarding the data generated using SQL Query.",
    "1. Query Decomposition and Understanding:",
    "- Analyze the user’s request to understand the main objective.",
    "- Break down requests into sub-queries that can each address a part of the user\x27s request, using the schema provided.",
    "2. SQL Query Creation:",
    "- For each sub-query, use the relevant tables and fields from the provided schema.",
    "- Construct SQL queries that are precise and tailored to retrieve the exact data required by the user’s request.",
    "- Use table joins when combining data from two or more tables based on related columns. For example, if data is split across multiple tables, each containing different attributes about a common entity (such as building id), you may need to use a table join. Table joins are also useful when filtering data based on conditions that span multiple tables. Lastly, table joins are useful when aggregating data from multiple tables or enriching a dataset with additional context or descriptive information stored in another table. The types of joins are: INNER JOIN, LEFT JOIN, RIGHT JOIN, and FULL JOIN.",
    "- Avoid joins if all the required data is available in a single table.",
    "3. Query Execution and Response:",
    "- Execute the constructed SQL queries against the Amazon Athena database.",
    "- Return the results of the SQL query in a format that answers the user\x27s question, ensuring data integrity and accuracy.",
    "If you get the following Lambda error:",
    "<lambda_error>",
    "Lambda response exceeds maximum size 25KB: 123644",
    "</lambda_error>",
    "Then: LIMIT to 10 rows.",
    "The following examples illustrate the kind of queries you should be able to construct based on the available data:" ]

/-- One appended per-table line of `generate_instruction` (lines 191-193 and
199-201, which are textually identical in both branches):
`- Table \x60tbl\x60 example query: SELECT "c1", "c2" FROM "tbl" LIMIT 5;`. -/
def exampleLine (table_name : String) (columns : List String) : String :=
  let cols := pyJoin ", " (columns.map fun col => "\"" ++ col ++ "\"")
  let sample_query := "SELECT " ++ cols ++ " FROM \"" ++ table_name ++ "\" LIMIT 5;"
  "- Table `" ++ table_name ++ "` example query: " ++ sample_query

/-- `generate_instruction` (lines 141-203). The `discovered` argument is the
oracle for the `else` branch: the list of `(table_name, columns)` pairs the
Catalog Schema Reader would produce via `get_all_tables` and
`get_table_schema` when every query succeeds. The `data_context` dict is an
association list in iteration order. The Python guard `if data_context:` is
`truthy data_context`. -/
def generate_instruction (database_name : String)
    (data_context : Option (List (String × DataCtx))) (env : String)
    (discovered : List (String × List String)) : String :=
  let parts := instruction_parts database_name
  let _athena_output := if env = "poc" then "athena-destination-store-texttosql"
    else "athena-destination-chatbot"
  let extra :=
    if truthy data_context then
      (data_context.getD []).map fun p => exampleLine p.1 p.2.columns
    else
      discovered.map fun p => exampleLine p.1 p.2
  pyJoin " " (parts ++ extra)

/-- One line of a decompressed `.json.gz` object, as `process_folder` sees it:
it either fails `json.loads` (a `JSONDecodeError`), decodes to a non-dict JSON
value, or decodes to a dict, modelled as its key/value pairs. -/
inductive JsonLine where
  | malformed
  | nonMapping
  | record (fields : List (String × String))
deriving DecidableEq, Repr

/-- One S3 object of a listing page: its key and its content. `body = none`
models an object whose fetch (`get_object`) or decompression raises, so the
outer `except` of `process_folder` skips the whole object. -/
structure S3Object where
  key : String
  body : Option (List JsonLine)
deriving DecidableEq, Repr

/-- The accumulator dict of `process_folder`: `columns` is the Python `set`
(the final `list(...)` conversion only lays the set out in unspecified order,
so the set is the faithful value), `sample_data` the retained first record. -/
structure FolderContext where
  columns : Finset String
  sample_data : Option (List (String × String))
deriving DecidableEq

/-- The key set of one decoded record (`json_data.keys()`). -/
def keysOf (r : List (String × String)) : Finset String :=
  (r.map Prod.fst).toFinset

/-- The body of the inner line loop (lines 33-42): a malformed line or a
non-dict value leaves the context unchanged (only logged); a dict record sets
`sample_data` if still absent and merges its keys into `columns`. -/
def processLine (ctx : FolderContext) : JsonLine → FolderContext
  | .malformed => ctx
  | .nonMapping => ctx
  | .record r =>
    let ctx1 := if ctx.sample_data = none then { ctx with sample_data := some r } else ctx
    { ctx1 with columns := ctx1.columns ∪ keysOf r }

/-- The per-object step (lines 26-44): only keys ending in `.json.gz` are
read; a failed fetch/decompression (`body = none`) is skipped by the outer
`except`; otherwise every line is fed to `processLine`. -/
def processObject (ctx : FolderContext) (obj : S3Object) : FolderContext :=
  if strEndsWith obj.key ".json.gz" then
    match obj.body with
    | none => ctx
    | some lines => lines.foldl processLine ctx
  else ctx

/-- `process_folder` (lines 10-47): folds the objects of every listing page,
in order, over the empty initial context. -/
def process_folder (pages : List (List S3Object)) : FolderContext :=
  pages.foldl (fun ctx page => page.foldl processObject ctx) ⟨∅, none⟩

/-- The dict records among a list of decoded lines, in line order. -/
def lineRecords : List JsonLine → List (List (String × String))
  | [] => []
  | .record r :: ls => r :: lineRecords ls
  | .malformed :: ls => lineRecords ls
  | .nonMapping :: ls => lineRecords ls

/-- The records `process_folder` successfully decodes from one object, in
line order: none unless the key matches `.json.gz` and the body was fetched. -/
def objectRecords (obj : S3Object) : List (List (String × String)) :=
  if strEndsWith obj.key ".json.gz" then
    match obj.body with
    | none => []
    | some lines => lineRecords lines
  else []

/-- All records `process_folder` successfully decodes, in processing order. -/
def decodedRecords (pages : List (List S3Object)) : List (List (String × String)) :=
  (pages.map fun page => (page.map objectRecords).flatten).flatten

/-- The union of the key sets of a list of records. -/
def recUnion (rs : List (List (String × String))) : Finset String :=
  rs.foldr (fun r acc => keysOf r ∪ acc) ∅

/-- The first of two options, mirroring how `sample_data` keeps its first
value: an already-set value wins over anything later. -/
def orFirst {α : Type} : Option α → Option α → Option α
  | some x, _ => some x
  | none, b => b

/-- Drops exactly the failing pieces of the scan: objects whose fetch or
decompression failed, and lines that fail to decode as JSON. -/
def scrubObject (obj : S3Object) : Option S3Object :=
  match obj.body with
  | none => none
  | some lines => some { obj with body := some (lines.filter (· ≠ JsonLine.malformed)) }

/-- `scrub` applied to every listing page. -/
def scrub (pages : List (List S3Object)) : List (List S3Object) :=
  pages.map fun page => page.filterMap scrubObject

/-- The terminal states of the polling loop of `_wait_for_query_execution`
(line 216): `['SUCCEEDED', 'FAILED', 'CANCELLED']`. -/
def terminalStates : List String := ["SUCCEEDED", "FAILED", "CANCELLED"]

/-- The `while True` poll of `_wait_for_query_execution` (lines 213-218):
`states i` is the state returned by the `i`-th `get_query_execution` call
(the calls are one sleep interval apart); `fuel` bounds how many polls we
unfold, `none` meaning the loop is still running after `fuel` polls. -/
def pollLoop (states : Nat → String) : Nat → Nat → Option String
  | 0, _ => none
  | fuel + 1, i => if states i ∈ terminalStates then some (states i) else pollLoop states fuel (i + 1)

/-- `_wait_for_query_execution` (lines 206-221): polls until a terminal state,
then returns `()` on `SUCCEEDED` and raises
`Exception(f"Query failed with state ...")` otherwise. `none` = still
polling after `fuel` status checks. -/
def wait_for_query_execution (states : Nat → String) (fuel : Nat) : Option (Except String Unit) :=
  match pollLoop states fuel 0 with
  | none => none
  | some state =>
    if state = "SUCCEEDED" then some (.ok ())
    else some (.error ("Query failed with state " ++ state))

/-- The Athena client as the two calls of the Readers see it: the stream of
poll states for the submitted query and `ResultSet.Rows` of its results, each
row being the `VarCharValue`s of its `Data` cells. -/
structure AthenaClient where
  states : Nat → String
  rows : List (List String)

/-- `[row['Data'][0]['VarCharValue'] for row in rows[1:]]` (lines 113, 138):
the first cell of every row after the header row; `none` models the
`IndexError` Python raises when some row has no cells. -/
def firstCells : List (List String) → Option (List String)
  | [] => some []
  | [] :: _ => none
  | (c :: _) :: rest => (firstCells rest).map (fun ts => c :: ts)

/-- `get_all_tables` (lines 93-113): submit `SHOW TABLES`, wait, then read the
first cell of every non-header result row. `none` = still polling. -/
def get_all_tables (client : AthenaClient) (fuel : Nat) : Option (Except String (List String)) :=
  match wait_for_query_execution client.states fuel with
  | none => none
  | some (.error e) => some (.error e)
  | some (.ok _) =>
    match firstCells (client.rows.drop 1) with
    | none => some (.error "IndexError: list index out of range")
    | some tables => some (.ok tables)

/-- `get_table_schema` (lines 116-138): identical result extraction to
`get_all_tables`; `env` only picks the dead-end output bucket name. -/
def get_table_schema (client : AthenaClient) (env : String) (fuel : Nat) :
    Option (Except String (List String)) :=
  let _athena_output := if env = "poc" then "athena-destination-store-texttosql"
    else "athena-destination-chatbot"
  match wait_for_query_execution client.states fuel with
  | none => none
  | some (.error e) => some (.error e)
  | some (.ok _) =>
    match firstCells (client.rows.drop 1) with
    | none => some (.error "IndexError: list index out of range")
    | some cols => some (.ok cols)

/-- One discovered tabular file of the `os.walk` over the root folder, in walk
order: its path components relative to the root (last component = filename),
and the parsed table (header columns and first row as a record). -/
structure CsvFile where
  relParts : List String
  columns : List String
  sample_data : List (String × String)
deriving DecidableEq, Repr

/-- Python dict assignment `d[k] = v` on an association list without duplicate
keys: replace the first binding of `k` in place, else append. -/
def dictUpsert : List (String × DataCtx) → String → DataCtx → List (String × DataCtx)
  | [], k, v => [(k, v)]
  | (k1, v1) :: d, k, v => if k1 = k then (k, v) :: d else (k1, v1) :: dictUpsert d k v

/-- The grouping key of `analyze_csv_files` (line 87):
`os.path.relpath(file_path, start=root).split(os.sep)[0].replace(' ', '_')` —
the first component of the path relative to the root, spaces replaced. -/
def topKey (f : CsvFile) : String :=
  replaceSpaces (f.relParts.headD "")

/-- `analyze_csv_files` (lines 71-90): walk the tree, and for every file whose
name ends in `.csv`, parse it and assign its columns and first record into
`data_context` under `topKey`. -/
def analyze_csv_files (files : List CsvFile) : List (String × DataCtx) :=
  files.foldl
    (fun data_context f =>
      if strEndsWith (f.relParts.getLastD "") ".csv" then
        dictUpsert data_context (topKey f) ⟨f.columns, some f.sample_data⟩
      else data_context)
    []

/-- `s` contains `sub` as a contiguous substring. -/
def strContains (s sub : String) : Prop :=
  ∃ a b, s = a ++ sub ++ b

/-! ### Helper lemmas -/

lemma pyJoin_append_singleton (sep y : String) (xs : List String) (h : xs ≠ []) :
    pyJoin sep (xs ++ [y]) = pyJoin sep xs ++ sep ++ y := by
  cases xs with
  | nil => exact absurd rfl h
  | cons x t => simp [pyJoin, List.foldl_append]

lemma recUnion_nil : recUnion [] = ∅ := rfl

lemma recUnion_cons (r : List (String × String)) (rs : List (List (String × String))) :
    recUnion (r :: rs) = keysOf r ∪ recUnion rs := rfl

lemma recUnion_append (xs ys : List (List (String × String))) :
    recUnion (xs ++ ys) = recUnion xs ∪ recUnion ys := by
  induction xs with
  | nil => simp [recUnion]
  | cons x xs ih =>
    rw [List.cons_append, recUnion_cons, recUnion_cons, ih, Finset.union_assoc]

lemma recUnion_eq_biUnion (rs : List (List (String × String))) :
    recUnion rs = rs.toFinset.biUnion keysOf := by
  induction rs with
  | nil => simp [recUnion]
  | cons r rs ih => rw [recUnion_cons, ih, List.toFinset_cons, Finset.biUnion_insert]

lemma orFirst_none_right {α : Type} (a : Option α) : orFirst a none = a := by
  cases a <;> rfl

lemma orFirst_assoc {α : Type} (a b c : Option α) :
    orFirst (orFirst a b) c = orFirst a (orFirst b c) := by
  cases a <;> rfl

lemma head?_append_orFirst {α : Type} (xs ys : List α) :
    (xs ++ ys).head? = orFirst xs.head? ys.head? := by
  cases xs <;> rfl

lemma foldl_processLine_eq (ls : List JsonLine) (ctx : FolderContext) :
    ls.foldl processLine ctx =
      ⟨ctx.columns ∪ recUnion (lineRecords ls), orFirst ctx.sample_data (lineRecords ls).head?⟩ := by
  induction ls generalizing ctx with
  | nil =>
    cases ctx with
    | mk c s => cases s <;> simp [recUnion, orFirst, lineRecords]
  | cons l ls ih =>
    cases l with
    | malformed => simp [processLine, ih, lineRecords]
    | nonMapping => simp [processLine, ih, lineRecords]
    | record r =>
      cases ctx with
      | mk c s =>
        cases s with
        | none =>
          simp [processLine, ih, lineRecords, recUnion_cons, orFirst, Finset.union_assoc]
        | some v =>
          simp [processLine, ih, lineRecords, recUnion_cons, orFirst, Finset.union_assoc]

lemma processObject_eq (ctx : FolderContext) (obj : S3Object) :
    processObject ctx obj =
      ⟨ctx.columns ∪ recUnion (objectRecords obj), orFirst ctx.sample_data (objectRecords obj).head?⟩ := by
  unfold processObject objectRecords
  by_cases hk : strEndsWith obj.key ".json.gz" = true
  · simp only [hk, if_true]
    cases obj.body with
    | none => cases ctx with
      | mk c s => simp [recUnion, orFirst_none_right]
    | some lines => exact foldl_processLine_eq lines ctx
  · simp only [hk, if_false]
    cases ctx with
    | mk c s => simp [recUnion, orFirst_none_right]

lemma foldl_processObject_eq (objs : List S3Object) (ctx : FolderContext) :
    objs.foldl processObject ctx =
      ⟨ctx.columns ∪ recUnion ((objs.map objectRecords).flatten),
        orFirst ctx.sample_data ((objs.map objectRecords).flatten).head?⟩ := by
  induction objs generalizing ctx with
  | nil =>
    cases ctx with
    | mk c s => simp [recUnion, orFirst_none_right]
  | cons o os ih =>
    rw [List.foldl_cons, processObject_eq, ih]
    simp only [List.map_cons, List.flatten_cons]
    rw [recUnion_append, head?_append_orFirst]
    simp [Finset.union_assoc, orFirst_assoc]

lemma foldl_pages_eq (pages : List (List S3Object)) (ctx : FolderContext) :
    pages.foldl (fun c page => page.foldl processObject c) ctx =
      ⟨ctx.columns ∪ recUnion (decodedRecords pages),
        orFirst ctx.sample_data (decodedRecords pages).head?⟩ := by
  induction pages generalizing ctx with
  | nil =>
    cases ctx with
    | mk c s => simp [decodedRecords, recUnion, orFirst_none_right]
  | cons p ps ih =>
    rw [List.foldl_cons, foldl_processObject_eq, ih]
    simp only [decodedRecords, List.map_cons, List.flatten_cons]
    rw [recUnion_append, head?_append_orFirst]
    simp [Finset.union_assoc, orFirst_assoc]

lemma process_folder_eq (pages : List (List S3Object)) :
    process_folder pages = ⟨recUnion (decodedRecords pages), (decodedRecords pages).head?⟩ := by
  unfold process_folder
  rw [foldl_pages_eq]
  simp [orFirst]

lemma lineRecords_filter_malformed (ls : List JsonLine) :
    lineRecords (ls.filter (· ≠ JsonLine.malformed)) = lineRecords ls := by
  induction ls with
  | nil => rfl
  | cons l ls ih =>
    simp only [ne_eq, decide_not] at ih ⊢
    cases l <;> simp [List.filter_cons, lineRecords, ih]

lemma objectRecords_scrubbed (o : S3Object) (ls : List JsonLine) (hb : o.body = some ls) :
    objectRecords ⟨o.key, some (ls.filter (· ≠ JsonLine.malformed))⟩ = objectRecords o := by
  unfold objectRecords
  rw [hb]
  by_cases hk : strEndsWith o.key ".json.gz" = true
  · rw [if_pos hk, if_pos hk]
    exact lineRecords_filter_malformed ls
  · rw [if_neg hk, if_neg hk]

lemma page_scrub_records (page : List S3Object) :
    ((page.filterMap scrubObject).map objectRecords).flatten = (page.map objectRecords).flatten := by
  induction page with
  | nil => rfl
  | cons o os ih =>
    cases hb : o.body with
    | none =>
      have h1 : scrubObject o = none := by
        unfold scrubObject
        rw [hb]
      have h2 : objectRecords o = [] := by
        unfold objectRecords
        rw [hb]
        by_cases hk : strEndsWith o.key ".json.gz" = true
        · rw [if_pos hk]
        · rw [if_neg hk]
      simp only [List.filterMap_cons, h1, List.map_cons, List.flatten_cons, h2,
        List.nil_append, ih]
    | some ls =>
      have h1 : scrubObject o = some ⟨o.key, some (ls.filter (· ≠ JsonLine.malformed))⟩ := by
        unfold scrubObject
        rw [hb]
      have h2 := objectRecords_scrubbed o ls hb
      simp only [List.filterMap_cons, h1, List.map_cons, List.flatten_cons, h2, ih]

lemma decodedRecords_scrub (pages : List (List S3Object)) :
    decodedRecords (scrub pages) = decodedRecords pages := by
  unfold decodedRecords scrub
  induction pages with
  | nil => rfl
  | cons p ps ih => simp only [List.map_cons, List.flatten_cons, page_scrub_records, ih]

/-! ### Claim theorems -/

/-- C2: after `process_folder` completes, the `columns` field equals, as a
set, the union of the key sets of all successfully decoded JSON mapping
records found under the partition; it depends only on the set of decoded
records (so it is invariant under any reordering of objects and lines), and
it is a superset of the keys of every record seen. -/
theorem process_folder_columns_union (pages : List (List S3Object)) :
    (process_folder pages).columns = (decodedRecords pages).toFinset.biUnion keysOf ∧
    (∀ r ∈ decodedRecords pages, keysOf r ⊆ (process_folder pages).columns) ∧
    (∀ pages2, (decodedRecords pages2).Perm (decodedRecords pages) →
      (process_folder pages2).columns = (process_folder pages).columns) := by
  refine ⟨?_, ?_, ?_⟩
  · rw [process_folder_eq, recUnion_eq_biUnion]
  · intro r hr
    rw [process_folder_eq, recUnion_eq_biUnion]
    exact Finset.subset_biUnion_of_mem keysOf (List.mem_toFinset.mpr hr)
  · intro pages2 hperm
    rw [process_folder_eq, process_folder_eq, recUnion_eq_biUnion, recUnion_eq_biUnion,
      List.toFinset_eq_of_perm _ _ hperm]

/-- C2 witness: a two-object partition whose records arrive in different
orders yields the same column set, which is the union of the key sets. -/
theorem process_folder_columns_union_witness :
    (process_folder [[⟨"x.json.gz", some [.record [("a", "1")]]⟩,
        ⟨"y.json.gz", some [.record [("b", "2")]]⟩]]).columns =
      (decodedRecords [[⟨"x.json.gz", some [.record [("a", "1")]]⟩,
        ⟨"y.json.gz", some [.record [("b", "2")]]⟩]]).toFinset.biUnion keysOf ∧
    keysOf [("a", "1")] ⊆
      (process_folder [[⟨"x.json.gz", some [.record [("a", "1")]]⟩,
        ⟨"y.json.gz", some [.record [("b", "2")]]⟩]]).columns := by
  have h := process_folder_columns_union [[⟨"x.json.gz", some [.record [("a", "1")]]⟩,
    ⟨"y.json.gz", some [.record [("b", "2")]]⟩]]
  exact ⟨h.1, h.2.1 [("a", "1")] (by decide)⟩

/-- C3: `sample_data` after `process_folder` is exactly the first successfully
decoded mapping record in processing order (and so, the ordering held fixed,
the retained sample is a deterministic function of the input). -/
theorem process_folder_sample_first (pages : List (List S3Object)) :
    (process_folder pages).sample_data = (decodedRecords pages).head? := by
  rw [process_folder_eq]

/-- C4: lines that fail to decode as JSON and objects whose content cannot be
fetched or decompressed have no effect on the result — dropping them all
(`scrub`) gives the same `FolderContext`, so the scan is never aborted by
them; concretely, 3 valid lines plus 1 malformed line yield exactly the union
of the keys of the 3 valid lines, with the first valid record as sample. -/
theorem process_folder_skips_failures :
    (∀ pages, process_folder (scrub pages) = process_folder pages) ∧
    process_folder [[⟨"part-0.json.gz",
        some [.record [("a", "1")], .malformed, .record [("b", "2")], .record [("c", "3")]]⟩]] =
      ⟨{"a", "b", "c"}, some [("a", "1")]⟩ := by
  constructor
  · intro pages
    rw [process_folder_eq, process_folder_eq, decodedRecords_scrub]
  · decide

lemma pollLoop_eq_none_iff (states : Nat → String) (fuel i : Nat) :
    pollLoop states fuel i = none ↔ ∀ j < fuel, states (i + j) ∉ terminalStates := by
  induction fuel generalizing i with
  | zero => simp [pollLoop]
  | succ fuel ih =>
    unfold pollLoop
    by_cases h : states i ∈ terminalStates
    · rw [if_pos h]
      simp only [reduceCtorEq, false_iff, not_forall]
      exact ⟨0, Nat.succ_pos fuel, not_not_intro (by simpa using h)⟩
    · rw [if_neg h]
      rw [ih (i + 1)]
      constructor
      · intro hall j hj
        cases j with
        | zero => simpa using h
        | succ j =>
          have := hall j (Nat.lt_of_succ_lt_succ hj)
          simpa [Nat.add_assoc, Nat.add_comm 1 j] using this
      · intro hall j hj
        have := hall (j + 1) (Nat.succ_lt_succ hj)
        simpa [Nat.add_assoc, Nat.add_comm 1 j] using this

lemma pollLoop_first_terminal (states : Nat → String) (n : Nat)
    (hfirst : ∀ j < n, states j ∉ terminalStates) (hn : states n ∈ terminalStates)
    (fuel : Nat) (hfuel : n < fuel) :
    pollLoop states fuel 0 = some (states n) := by
  suffices h : ∀ fuel n i, (∀ j < n, states (i + j) ∉ terminalStates) →
      states (i + n) ∈ terminalStates → n < fuel → pollLoop states fuel i = some (states (i + n)) by
    have := h fuel n 0 (by simpa using hfirst) (by simpa using hn) hfuel
    simpa using this
  intro fuel
  induction fuel with
  | zero => intro n i _ _ hlt; exact absurd hlt (Nat.not_lt_zero n)
  | succ fuel ih =>
    intro n i hfst hterm hlt
    cases n with
    | zero =>
      unfold pollLoop
      rw [if_pos (by simpa using hterm)]
      simp
    | succ m =>
      unfold pollLoop
      have hi : states i ∉ terminalStates := by simpa using hfst 0 (Nat.succ_pos m)
      rw [if_neg hi]
      have h1 : ∀ j < m, states (i + 1 + j) ∉ terminalStates := by
        intro j hj
        have := hfst (j + 1) (Nat.succ_lt_succ hj)
        simpa [Nat.add_assoc, Nat.add_comm 1 j] using this
      have h2 : states (i + 1 + m) ∈ terminalStates := by
        have he : i + 1 + m = i + (m + 1) := by omega
        rw [he]
        exact hterm
      have h3 : m < fuel := by omega
      have h4 := ih m (i + 1) h1 h2 h3
      rw [h4]
      have he : i + 1 + m = i + (m + 1) := by omega
      rw [he]

lemma wait_eq_none_iff (states : Nat → String) (fuel : Nat) :
    wait_for_query_execution states fuel = none ↔ ∀ j < fuel, states j ∉ terminalStates := by
  unfold wait_for_query_execution
  cases h : pollLoop states fuel 0 with
  | none =>
    simpa using (pollLoop_eq_none_iff states fuel 0).mp h
  | some s =>
    have hns : ¬ ∀ j < fuel, states j ∉ terminalStates := by
      intro hall
      have hnone := (pollLoop_eq_none_iff states fuel 0).mpr (by simpa using hall)
      rw [hnone] at h
      exact Option.noConfusion h
    by_cases hs : s = "SUCCEEDED" <;> simp [hs, hns]

lemma wait_failure (states : Nat → String) (n fuel : Nat)
    (hfirst : ∀ j < n, states j ∉ terminalStates) (hn : states n ∈ terminalStates)
    (hns : states n ≠ "SUCCEEDED") (hfuel : n < fuel) :
    wait_for_query_execution states fuel =
      some (.error ("Query failed with state " ++ states n)) := by
  unfold wait_for_query_execution
  simp only [pollLoop_first_terminal states n hfirst hn fuel hfuel]
  rw [if_neg hns]

lemma firstCells_eq (rs : List (List String)) (h : ∀ r ∈ rs, r ≠ []) :
    firstCells rs = some (rs.map fun r => r.headD "") := by
  induction rs with
  | nil => rfl
  | cons r rs ih =>
    cases r with
    | nil => exact absurd rfl (h [] (List.mem_cons_self _ _))
    | cons c cs =>
      have hrest := ih (fun r hr => h r (List.mem_cons_of_mem _ hr))
      simp [firstCells, hrest]

/-- C5: when the polled query reaches a first terminal state FAILED or
CANCELLED, both Catalog Schema Reader operations raise the failure carrying
that terminal state and return no (even empty) result list. -/
theorem query_failure_raises (client : AthenaClient) (env : String) (n fuel : Nat)
    (hterm : client.states n = "FAILED" ∨ client.states n = "CANCELLED")
    (hfirst : ∀ j < n, client.states j ∉ terminalStates)
    (hfuel : n < fuel) :
    get_all_tables client fuel =
      some (.error ("Query failed with state " ++ client.states n)) ∧
    get_table_schema client env fuel =
      some (.error ("Query failed with state " ++ client.states n)) ∧
    (∀ res, get_all_tables client fuel ≠ some (.ok res)) ∧
    (∀ res, get_table_schema client env fuel ≠ some (.ok res)) := by
  have hmem : client.states n ∈ terminalStates := by
    cases hterm with
    | inl h => rw [h]; decide
    | inr h => rw [h]; decide
  have hns : client.states n ≠ "SUCCEEDED" := by
    cases hterm with
    | inl h => rw [h]; decide
    | inr h => rw [h]; decide
  have hw := wait_failure client.states n fuel hfirst hmem hns hfuel
  have h1 : get_all_tables client fuel =
      some (.error ("Query failed with state " ++ client.states n)) := by
    unfold get_all_tables
    rw [hw]
  have h2 : get_table_schema client env fuel =
      some (.error ("Query failed with state " ++ client.states n)) := by
    unfold get_table_schema
    rw [hw]
  refine ⟨h1, h2, ?_, ?_⟩
  · intro res hres
    rw [h1] at hres
    simp at hres
  · intro res hres
    rw [h2] at hres
    simp at hres

/-- C5 witness: a query that is FAILED at the very first poll makes
`get_all_tables` raise with the terminal state in the message. -/
theorem query_failure_raises_witness :
    get_all_tables ⟨fun _ => "FAILED", []⟩ 1 =
      some (.error ("Query failed with state " ++ "FAILED")) := by
  have h := query_failure_raises ⟨fun _ => "FAILED", []⟩ "poc" 0 1 (Or.inl rfl)
    (fun j hj => absurd hj (Nat.not_lt_zero j)) Nat.zero_lt_one
  exact h.1

/-- C8: the polling loop, unfolded for `fuel` status checks one interval
apart, is still running after them if and only if no checked state was
terminal; hence a stream with no terminal state is polled indefinitely (there
is no maximum-attempts cutoff), and any terminal state within the unfolded
range makes the loop terminate (return or raise). -/
theorem wait_terminates_iff_terminal (states : Nat → String) :
    (∀ fuel, wait_for_query_execution states fuel = none ↔
      ∀ j < fuel, states j ∉ terminalStates) ∧
    ((∀ j, states j ∉ terminalStates) →
      ∀ fuel, wait_for_query_execution states fuel = none) ∧
    (∀ n fuel, states n ∈ terminalStates → n < fuel →
      wait_for_query_execution states fuel ≠ none) := by
  refine ⟨fun fuel => wait_eq_none_iff states fuel, ?_, ?_⟩
  · intro hall fuel
    exact (wait_eq_none_iff states fuel).mpr (fun j _ => hall j)
  · intro n fuel hn hfuel hnone
    exact ((wait_eq_none_iff states fuel).mp hnone) n hfuel hn

/-- C8 witness: a stream that never leaves RUNNING is still being polled
after 5 checks. -/
theorem wait_terminates_iff_terminal_witness :
    wait_for_query_execution (fun _ => "RUNNING") 5 = none :=
  (wait_terminates_iff_terminal (fun _ => "RUNNING")).2.1 (fun j => by decide) 5

/-- C10: on a SUCCEEDED query whose non-header rows are all non-empty, both
Reader operations return the first cell of every row after the header row in
row order; when the result set has only the header row or no rows, they
return the empty list rather than raising. -/
theorem results_skip_header_first_cells (client : AthenaClient) (env : String) (fuel : Nat)
    (hsucc : wait_for_query_execution client.states fuel = some (.ok ()))
    (hrows : ∀ r ∈ client.rows.drop 1, r ≠ []) :
    get_all_tables client fuel =
      some (.ok ((client.rows.drop 1).map fun r => r.headD "")) ∧
    get_table_schema client env fuel =
      some (.ok ((client.rows.drop 1).map fun r => r.headD "")) ∧
    (client.rows.length ≤ 1 →
      get_all_tables client fuel = some (.ok []) ∧
      get_table_schema client env fuel = some (.ok [])) := by
  have hfc := firstCells_eq (client.rows.drop 1) hrows
  have h1 : get_all_tables client fuel =
      some (.ok ((client.rows.drop 1).map fun r => r.headD "")) := by
    unfold get_all_tables
    rw [hsucc, hfc]
  have h2 : get_table_schema client env fuel =
      some (.ok ((client.rows.drop 1).map fun r => r.headD "")) := by
    unfold get_table_schema
    rw [hsucc, hfc]
  refine ⟨h1, h2, ?_⟩
  intro hle
  have hdrop : client.rows.drop 1 = [] := List.drop_eq_nil_of_le hle
  constructor
  · rw [h1, hdrop]
    rfl
  · rw [h2, hdrop]
    rfl

/-- C10 witness: a result set with a header row and two data rows yields the
two first cells; discharging the SUCCEEDED and non-empty-row hypotheses
concretely. -/
theorem results_skip_header_first_cells_witness :
    get_all_tables ⟨fun _ => "SUCCEEDED", [["tab_name"], ["t1"], ["t2"]]⟩ 1 =
      some (.ok ["t1", "t2"]) := by
  have h := results_skip_header_first_cells
    ⟨fun _ => "SUCCEEDED", [["tab_name"], ["t1"], ["t2"]]⟩ "poc" 1 rfl (by decide)
  exact h.1

lemma lookup_dictUpsert (d : List (String × DataCtx)) (k : String) (v : DataCtx) :
    (dictUpsert d k v).lookup k = some v := by
  induction d with
  | nil => simp [dictUpsert, List.lookup]
  | cons p d ih =>
    cases p with
    | mk k1 v1 =>
      by_cases h : k1 = k
      · subst h
        simp [dictUpsert, List.lookup]
      · have hne : (k == k1) = false := by
          simp only [beq_eq_false_iff_ne, ne_eq]
          exact Ne.symm h
        simp [dictUpsert, h, List.lookup, hne, ih]

/-- C1 counterexample: with the empty context mapping the Python guard
`if data_context:` is falsy, so `generate_instruction` takes the discovery
branch; when discovery finds one table, a per-table example line IS appended,
so the result is not the bare preamble join. -/
theorem empty_context_counterexample :
    generate_instruction "db" (some []) "poc" [("t", ["c"])] ≠
      pyJoin " " (instruction_parts "db") := by
  intro h
  have h0 : generate_instruction "db" (some []) "poc" [("t", ["c"])] =
      pyJoin " " (instruction_parts "db" ++ [exampleLine "t" ["c"]]) := rfl
  have hne : instruction_parts "db" ≠ [] := fun hc => List.noConfusion hc
  have hsplit := pyJoin_append_singleton " " (exampleLine "t" ["c"]) (instruction_parts "db") hne
  rw [h0, hsplit] at h
  have hlen := congrArg String.length h
  rw [String.length_append, String.length_append] at hlen
  have hsp : (" " : String).length = 1 := rfl
  rw [hsp] at hlen
  omega

/-- C1 amended: with the empty context mapping, `generate_instruction`
behaves exactly as with no context at all — it goes through Catalog Schema
Reader discovery — and it returns the fixed preamble parts joined by single
spaces with no trailing per-table lines precisely when that discovery yields
no tables. -/
theorem empty_context_uses_discovery (db env : String)
    (discovered : List (String × List String)) :
    generate_instruction db (some []) env discovered =
      generate_instruction db none env discovered ∧
    (discovered = [] →
      generate_instruction db (some []) env discovered =
        pyJoin " " (instruction_parts db)) := by
  constructor
  · rfl
  · intro h
    subst h
    simp [generate_instruction, truthy]

/-- C1 amended witness: empty context plus empty discovery gives the bare
joined preamble. -/
theorem empty_context_uses_discovery_witness :
    generate_instruction "db" (some []) "poc" [] = pyJoin " " (instruction_parts "db") :=
  (empty_context_uses_discovery "db" "poc" []).2 rfl

set_option maxRecDepth 4000 in
/-- C6: for the supplied context mapping with entry
`"trips" : {columns := ["id", "fare"], sample_data := ...}`, the returned
string contains exactly the substring
`Table \x60trips\x60 example query: SELECT "id", "fare" FROM "trips" LIMIT 5;`. -/
theorem trips_example_query_substring (db env : String)
    (discovered : List (String × List String)) (sample : Option (List (String × String))) :
    strContains
      (generate_instruction db (some [("trips", ⟨["id", "fare"], sample⟩)]) env discovered)
      "Table `trips` example query: SELECT \"id\", \"fare\" FROM \"trips\" LIMIT 5;" := by
  have h0 : generate_instruction db (some [("trips", ⟨["id", "fare"], sample⟩)]) env discovered =
      pyJoin " " (instruction_parts db ++ [exampleLine "trips" ["id", "fare"]]) := rfl
  have hne : instruction_parts db ≠ [] := fun hc => List.noConfusion hc
  have hsplit := pyJoin_append_singleton " " (exampleLine "trips" ["id", "fare"])
    (instruction_parts db) hne
  have hline : exampleLine "trips" ["id", "fare"] =
      "- " ++ "Table `trips` example query: SELECT \"id\", \"fare\" FROM \"trips\" LIMIT 5;" := by
    decide
  refine ⟨pyJoin " " (instruction_parts db) ++ " " ++ "- ", "", ?_⟩
  rw [h0, hsplit, hline, String.append_empty, ← String.append_assoc]

/-- C7: `analyze_csv_files` keys each entry by the top-level component of the
path relative to the root (spaces replaced with underscores), and the last
tabular file processed for a key fully overwrites any earlier entry: the
stored value is exactly the last file's columns and first record, with no
merging. -/
theorem analyze_csv_last_write_wins (fs : List CsvFile) (f : CsvFile)
    (hcsv : strEndsWith (f.relParts.getLastD "") ".csv" = true) :
    (analyze_csv_files (fs ++ [f])).lookup (topKey f) =
      some ⟨f.columns, some f.sample_data⟩ := by
  unfold analyze_csv_files
  rw [List.foldl_append]
  simp only [List.foldl_cons, List.foldl_nil]
  rw [if_pos hcsv]
  exact lookup_dictUpsert _ _ _

/-- C7 witness: two CSV files in the same top-level directory `d` with
different column sets; the mapping keeps only the second file's columns and
sample. -/
theorem analyze_csv_last_write_wins_witness :
    (analyze_csv_files [⟨["d", "a.csv"], ["x"], [("x", "1")]⟩,
        ⟨["d", "b.csv"], ["y", "z"], [("y", "2")]⟩]).lookup "d" =
      some ⟨["y", "z"], some [("y", "2")]⟩ := by
  have h := analyze_csv_last_write_wins [⟨["d", "a.csv"], ["x"], [("x", "1")]⟩]
    ⟨["d", "b.csv"], ["y", "z"], [("y", "2")]⟩ (by decide)
  exact h

/-- C9: a CSV file sitting directly in the root has a one-component relative
path, so the grouping key is its own filename with spaces replaced by
underscores, not a subdirectory name. -/
theorem analyze_csv_root_file_key (nm : String) (cols : List String)
    (row : List (String × String)) (hcsv : strEndsWith nm ".csv" = true) :
    analyze_csv_files [⟨[nm], cols, row⟩] = [(replaceSpaces nm, ⟨cols, some row⟩)] := by
  unfold analyze_csv_files
  simp only [List.foldl_cons, List.foldl_nil]
  rw [if_pos (show strEndsWith (List.getLastD [nm] "") ".csv" = true from hcsv)]
  rfl

/-- C9 witness: a root-level file `my data.csv` is keyed as `my_data.csv`. -/
theorem analyze_csv_root_file_key_witness :
    analyze_csv_files [⟨["my data.csv"], ["id"], [("id", "7")]⟩] =
      [("my_data.csv", ⟨["id"], some [("id", "7")]⟩)] := by
  have h := analyze_csv_root_file_key "my data.csv" ["id"] [("id", "7")] (by decide)
  rw [h]
  decide
